import Mathlib

/-!
Verification of the camelid incremental-update / CASRN core.

This file gives a shallow embedding, in Lean 4, of the algorithmic core of
the `camelid` package (repository `commongroups-archived`):

* `casrnutils.validate` / `casrnutils.find`   (CAS Registry Number check digit)
* `synutils.select_synonym`                   (synonym allow/deny classification)
* `pubchemutils.gen_compounds`                (date-filtered compound generator)
* `cmgroup.CMGroup.update_from_cids`          (resume / incremental update)
* `cmgroup.CMGroup.retrieve_pubchem_search`, `init_pubchem_search`
* `cmgroup.batch_cmg_search`                  (batch orchestration)

External web-service calls (PubChem) are modelled as parameters (`Fetcher`,
`PubChemService`): the embedding is faithful to what the Python code does with
the values those calls return, not to HTTP plumbing.  Machine-level details
that no theorem depends on (log messages, sleeps) are omitted; file contents
are modelled as explicit values (a JSONL file is a list of lines, each line
either a parsed record or an unparsable line).
-/

namespace Camelid

/-! ### casrnutils.validate

Python source (`src/camelid/casrnutils.py`):

    casrn = str(casrn)
    nums = ''.join(re.findall(r'\d+', casrn))
    if len(nums) < 5:
        valid = False
    else:
        digits = np.array([int(i) for i in nums])
        check_digit = sum(digits[:-1] * np.arange(1, len(nums))[::-1]) % 10
        valid = (check_digit == digits[-1])
    if output == 'bool': return valid
    else: return '-'.join([nums[:-3], nums[-3:-1], nums[-1:]]) if valid else None

Joining all `\d+` matches of a string is the same as filtering its digit
characters, preserving order.  `np.arange(1, n)[::-1]` is `[n-1, ..., 1]`.
-/

/-- The digit characters of a string, in order
(`''.join(re.findall(r'\d+', casrn))`). -/
def digitsOf (s : String) : List Char :=
  s.data.filter Char.isDigit

/-- Numeric value of a digit character (`int(i)`). -/
def digitVal (c : Char) : Nat := c.toNat - 48

/-- `sum(digits[:-1] * np.arange(1, len(nums))[::-1])` : the weighted sum of
all digits but the last, with weights `n-1, n-2, ..., 1`. -/
def checkSum (ds : List Nat) : Nat :=
  (ds.dropLast.zipWith (· * ·) (List.range' 1 (ds.length - 1)).reverse).sum

/-- The `valid` flag computed by `casrnutils.validate`. -/
def casrnValidDigits (ds : List Nat) : Bool :=
  if ds.length < 5 then false
  else checkSum ds % 10 = ds.getLastD 0

/-- `'-'.join([nums[:-3], nums[-3:-1], nums[-1:]])`. -/
def hyphenate (nums : List Char) : String :=
  String.mk (nums.take (nums.length - 3)) ++ "-" ++
    String.mk ((nums.drop (nums.length - 3)).take 2) ++ "-" ++
    String.mk (nums.drop (nums.length - 1))

/-- `casrnutils.validate(casrn)` with the default `output='str'`:
`None` (here `none`) if invalid, the canonically hyphenated CASRN otherwise. -/
def validate (casrn : String) : Option String :=
  let nums := digitsOf casrn
  if casrnValidDigits (nums.map digitVal) then some (hyphenate nums) else none

/-- `casrnutils.validate(casrn, output='bool')`. -/
def validate_bool (casrn : String) : Bool :=
  casrnValidDigits ((digitsOf casrn).map digitVal)

/-! ### casrnutils.find (strict mode)

Python source:

    casrn_rx = re.compile(r'(\d{2,7})[-–—](\d{2})[-–—]\d')
    found = [i.group() for i in casrn_rx.finditer(string)]
    if valid:
        found = list(filter(None, [validate(x) for x in found]))
    return found

A match of this regex at a given position consumes a digit run of length
2..7 (it must be the whole maximal run starting there, since the character
after the consumed digits has to be a separator), a separator, exactly two
digits, a separator terminating that two-digit run, and one digit.
`finditer` scans left to right and resumes after each (non-overlapping)
match.
-/

/-- The separator character class `[-–—]` (hyphen, en dash, em dash). -/
def isSep (c : Char) : Bool :=
  c = '-' || c = '–' || c = '—'

/-- Attempt to match `(\d{2,7})[-–—](\d{2})[-–—]\d` at the head of `l`;
on success return the matched characters and the rest of the input. -/
def matchStrictAt (l : List Char) : Option (List Char × List Char) :=
  match l.dropWhile Char.isDigit with
  | s₁ :: a :: b :: s₂ :: c :: rest =>
    if (2 ≤ (l.takeWhile Char.isDigit).length &&
          (l.takeWhile Char.isDigit).length ≤ 7) &&
        (isSep s₁ && a.isDigit && b.isDigit && isSep s₂ && c.isDigit) then
      some (l.takeWhile Char.isDigit ++ [s₁, a, b, s₂, c], rest)
    else none
  | _ => none

/-- Fuel-indexed scan for `finditer`.  Each step consumes at least one
character (`matchStrictAt_rest_lt`), so fuel equal to the input length is
enough; `strictMatchesAux_fuel` below proves the fuel is irrelevant once
sufficient. -/
def strictMatchesAux : Nat → List Char → List (List Char)
  | 0, _ => []
  | _ + 1, [] => []
  | fuel + 1, c :: t =>
    match matchStrictAt (c :: t) with
    | some (m, rest) => m :: strictMatchesAux fuel rest
    | none => strictMatchesAux fuel t

/-- `finditer` over the strict CASRN regex: all non-overlapping matches,
left to right. -/
def strictMatches (l : List Char) : List (List Char) :=
  strictMatchesAux l.length l

/-- `casrnutils.find(string)` with the defaults `lenient=False, valid=True`. -/
def find (s : String) : List String :=
  let found := (strictMatches s.data).map String.mk
  (found.map validate).filterMap id

/-! ### synutils

Each entry of `DESELECT_RX` / `SELECT_RX` is a Python regex applied with
`re.search` (match anywhere; `^`/`$` anchor at the string boundary, no
multiline flag).  Each is embedded as a decidable predicate on the
character list of the synonym.
-/

/-- `re.search` of a pattern that itself is matched at a position: try the
positional matcher at every suffix. -/
def searchAny (p : List Char → Bool) : List Char → Bool
  | [] => p []
  | c :: t => p (c :: t) || searchAny p t

/-- Uppercase ASCII letter (the Python class `[A-Z]`). -/
def isUpperAZ (c : Char) : Bool := 'A' ≤ c && c ≤ 'Z'

/-- `[A-Z0-9]`. -/
def isUpperOrDigit (c : Char) : Bool := isUpperAZ c || c.isDigit

/-- Exactly `n` characters satisfying `q`, followed by a remainder on which
`k` succeeds. -/
def runThen (q : Char → Bool) : Nat → (List Char → Bool) → List Char → Bool
  | 0, k, l => k l
  | n + 1, k, c :: t => q c && runThen q n k t
  | _ + 1, _, [] => false

/-- `r'^\d{2,}'` : starts with at least two digits. -/
def rxLeadingDigits : List Char → Bool
  | a :: b :: _ => a.isDigit && b.isDigit
  | _ => false

/-- `r'\d{3,}'` : three or more digits in a row, anywhere. -/
def rxDigitRun3 (l : List Char) : Bool :=
  searchAny (fun t =>
    match t with
    | a :: b :: c :: _ => a.isDigit && b.isDigit && c.isDigit
    | _ => false) l

/-- `r'^\d+$'` : entirely digits (nonempty). -/
def rxAllDigits (l : List Char) : Bool :=
  !l.isEmpty && l.all Char.isDigit

/-- `r'^[A-Z0-9]{10}$'` : exactly ten uppercase-or-digit characters. -/
def rxTenCharCode (l : List Char) : Bool :=
  l.length = 10 && l.all isUpperOrDigit

/-- `r'^InChI'`. -/
def rxInChI (l : List Char) : Bool :=
  "InChI".data.isPrefixOf l

/-- `r'[A-Z]{14}-[A-Z]{10}-[A-Z]'` at one position. -/
def inchikeyAt (l : List Char) : Bool :=
  runThen isUpperAZ 14 (fun r =>
    match r with
    | '-' :: r₂ =>
      runThen isUpperAZ 10 (fun r₃ =>
        match r₃ with
        | '-' :: c :: _ => isUpperAZ c
        | _ => false) r₂
    | _ => false) l

/-- `r'[A-Z]{14}-[A-Z]{10}-[A-Z]'` searched anywhere (InChIKey). -/
def rxInChIKey (l : List Char) : Bool :=
  searchAny inchikeyAt l

/-- `r'^AC1'`. -/
def rxAC1 (l : List Char) : Bool := "AC1".data.isPrefixOf l

/-- `r'^WLN:'`. -/
def rxWLN (l : List Char) : Bool := "WLN:".data.isPrefixOf l

/-- `r'^ACMC-'`. -/
def rxACMC (l : List Char) : Bool := "ACMC-".data.isPrefixOf l

/-- `r'^C\d+H\d+'` : an organic molecular formula prefix.  `\d+` is greedy
but, since a digit cannot also be `H`, a match exists iff the maximal digit
run after `C` is nonempty and is followed by `H` and a digit. -/
def rxMolFormula : List Char → Bool
  | 'C' :: t =>
    !(t.takeWhile Char.isDigit).isEmpty &&
      (match t.dropWhile Char.isDigit with
       | 'H' :: d :: _ => d.isDigit
       | _ => false)
  | _ => false

/-- The `DESELECT` pattern list of `synutils`, in source order. -/
def DESELECT : List (List Char → Bool) :=
  [rxLeadingDigits, rxDigitRun3, rxAllDigits, rxTenCharCode, rxInChI,
   rxInChIKey, rxAC1, rxWLN, rxACMC, rxMolFormula]

/-- The `SELECT` pattern dict of `synutils` (`'UNII'`, `'CHEMBL'`). -/
def SELECT : List (String × (List Char → Bool)) :=
  [("UNII", fun l => "UNII-".data.isPrefixOf l),
   ("CHEMBL", fun l => "CHEMBL".data.isPrefixOf l)]

/-- `synutils.select_name`: true unless some deny pattern matches. -/
def select_name (synonym : String) : Bool :=
  let deselecting := DESELECT.map (fun patt => patt synonym.data)
  let deselected := deselecting.any id
  !deselected

/-- `synutils.select_synonym`: keep iff some allow pattern matches or no
deny pattern matches. -/
def select_synonym (synonym : String) : Bool :=
  let deselecting := DESELECT.map (fun patt => patt synonym.data)
  let deselected := deselecting.any id
  let selecting := SELECT.map (fun kp => kp.2 synonym.data)
  let selected := selecting.any id
  selected || !deselected

/-! ### pubchemutils / cmgroup — data model

Dates are modelled as integer day ordinals (`datetime.date` ordering and
`(a - b).days` become integer comparison/subtraction).  A compound record
(`get_compound_info` result plus the `creation_date` added by
`gen_compounds`) has the fields `CID`, `CASRN_list`, `IUPAC_name`,
`creation_date`; `creation_date` is the empty string when the date is
unknown, modelled by `none`.

The external PubChem boundary is a parameter: `Fetcher.getCreationDate`
models `get_creation_date` (returning `None` on failure) and
`Fetcher.compoundInfo` models the `CASRN_list`/`IUPAC_name` data that
`get_compound_info` assembles from the service for a CID.
-/

/-- Python exceptions that the modelled control flow distinguishes. -/
inductive PyError where
  | typeError
  | webServiceError
  | keyError
  | notImplementedError
deriving DecidableEq, Repr

/-- One compound record, as written to the JSONL result log. -/
structure Compound where
  CID : Nat
  CASRN_list : String
  IUPAC_name : Option String
  creation_date : Option Int
deriving DecidableEq, Repr

/-- The external compound-information boundary (`pubchemutils`). -/
structure Fetcher where
  getCreationDate : Nat → Option Int
  compoundInfo : Nat → String × Option String

/-- `pubchemutils.get_compound_info(cid)`: a dict with keys `CID`,
`CASRN_list`, `IUPAC_name` (no `creation_date` yet). -/
def get_compound_info (f : Fetcher) (cid : Nat) : Compound :=
  { CID := cid
    CASRN_list := (f.compoundInfo cid).1
    IUPAC_name := (f.compoundInfo cid).2
    creation_date := none }

/-- The record `gen_compounds` yields for `cid` when it is not skipped:
`get_compound_info` plus `creation_date`. -/
def fetched (f : Fetcher) (cid : Nat) : Compound :=
  { get_compound_info f cid with creation_date := f.getCreationDate cid }

/-! `pubchemutils.gen_compounds(cids, last_updated)` is a generator:

    for cid in cids:
        created = get_creation_date(cid)
        if isinstance(last_updated, date):
            delta = created - last_updated
            if delta.days < 0: continue
        creation_date = created.isoformat() if created else ''
        results = get_compound_info(cid)
        results.update({'creation_date': creation_date})
        yield results

When `last_updated` is a date and `created` is `None`, the subtraction
`created - last_updated` raises `TypeError`.  The model returns the list
of records yielded before any such exception, together with the exception
(if any) that terminates the generator. -/
def gen_compounds (f : Fetcher) (cids : List Nat) (last_updated : Option Int) :
    List Compound × Option PyError :=
  match cids with
  | [] => ([], none)
  | cid :: rest =>
    match last_updated with
    | some lu =>
      match f.getCreationDate cid with
      | none => ([], some .typeError)
      | some created =>
        if created - lu < 0 then gen_compounds f rest last_updated
        else
          let (tail, err) := gen_compounds f rest last_updated
          (fetched f cid :: tail, err)
    | none =>
      let (tail, err) := gen_compounds f rest last_updated
      (fetched f cid :: tail, err)

/-! ### cmgroup.CMGroup — persistent state and transitions

A group's on-disk and in-memory state.  `compounds_file` is the JSONL
result log, one line per list entry; `none` stands for an unparsable line.
A missing or empty log file and a missing CID file behave identically to
the empty list at every use site modelled here (`FileNotFoundError` and
`StopIteration` are caught together, and `get_returned_cids` returns `[]`
when the file is absent). -/
structure CMGroupState where
  searchtype : Option String
  structtype : String
  searchstring : String
  listkey : Option String
  cids_file : List Nat
  compounds_file : List (Option Compound)
  last_updated : Option Int
  current_update : Option Int
deriving DecidableEq, Repr

/-- The external asynchronous-search boundary used by `CMGroup`
(`init_substruct_search`, `retrieve_search_results`); `.error` is a raised
`WebServiceError`. -/
structure PubChemService where
  initSearch : String → String → Except Unit String
  retrieveResults : String → Except Unit (List Nat)

/-- `CMGroup.init_pubchem_search`: on `searchtype == 'substructure'`,
obtain a ListKey and record the current-update date; a missing parameter
raises `KeyError` (re-raised), a different search type raises
`NotImplementedError` (uncaught), and a `WebServiceError` from the boundary
is caught and logged, leaving the state unchanged. -/
def init_pubchem_search (svc : PubChemService) (today : Int)
    (g : CMGroupState) : CMGroupState × Option PyError :=
  match g.searchtype with
  | none => (g, some .keyError)
  | some st =>
    if st = "substructure" then
      match svc.initSearch g.structtype g.searchstring with
      | .ok key => ({ g with listkey := some key, current_update := some today }, none)
      | .error _ => (g, none)
    else (g, some .notImplementedError)

/-- `CMGroup.retrieve_pubchem_search`: nothing happens without a ListKey;
otherwise the retrieved CID list overwrites the CID file and the ListKey is
cleared, unless the boundary raises `WebServiceError`, which is caught,
leaving both untouched. -/
def retrieve_pubchem_search (svc : PubChemService) (g : CMGroupState) :
    CMGroupState :=
  match g.listkey with
  | none => g
  | some key =>
    match svc.retrieveResults key with
    | .ok cids => { g with cids_file := cids, listkey := none }
    | .error _ => g

/-- The resume computation of `CMGroup.update_from_cids`: read the last
line of the result log; if it parses and its `CID` occurs in the returned
CID list (`list.index` finds the first occurrence), continue one past it;
on a missing/empty log, an unparsable last line, or a CID not in the list
(`FileNotFoundError`, `ValueError`, `StopIteration`), process the whole
list. -/
def resume_cids (log : List (Option Compound)) (returned : List Nat) :
    List Nat :=
  match log.getLast? with
  | some (some r) =>
    match returned.findIdx? (fun c => c == r.CID) with
    | some i => returned.drop (i + 1)
    | none => returned
  | _ => returned

/-- The records durably appended when the generator raises mid-run:
`list(islice(new, 5))` loses the partially collected batch, so only whole
batches of five written before the exception survive. -/
def batches_written (ys : List Compound) : List Compound :=
  ys.take (5 * (ys.length / 5))

/-- `CMGroup.update_from_cids`: no-op on an empty CID list; otherwise
append one line per record produced by `gen_compounds` over the resume
slice.  Batching in fives (with a sleep between batches) does not change
the final log on success; on an exception from the generator the partial
batch is lost and the exception propagates. -/
def update_from_cids (f : Fetcher) (g : CMGroupState) :
    CMGroupState × Option PyError :=
  if g.cids_file.isEmpty then (g, none)
  else
    let cids := resume_cids g.compounds_file g.cids_file
    let (ys, err) := gen_compounds f cids g.last_updated
    match err with
    | none => ({ g with compounds_file := g.compounds_file ++ ys.map some }, none)
    | some e =>
      ({ g with compounds_file :=
          g.compounds_file ++ (batches_written ys).map some }, some e)

/-! ### cmgroup.batch_cmg_search

    if not resume_update:
        for group in groups: group.init_pubchem_search()
        sleep(wait)
        for group in groups: group.retrieve_pubchem_search(**kwargs)
    for group in groups:
        group.update_from_cids()
        group.to_excel()

None of the three loops catches exceptions: an exception raised by a
group's method propagates out of `batch_cmg_search`, leaving the remaining
groups exactly as they were.  `to_excel` only exports (it does not change
the modelled state). -/

/-- The initiation loop of `batch_cmg_search`. -/
def batch_init_loop (svc : PubChemService) (today : Int) :
    List CMGroupState → List CMGroupState × Option PyError
  | [] => ([], none)
  | g :: rest =>
    match init_pubchem_search svc today g with
    | (g', none) =>
      let (rest', e) := batch_init_loop svc today rest
      (g' :: rest', e)
    | (g', some e) => (g' :: rest, some e)

/-- The retrieval loop of `batch_cmg_search` (`retrieve_pubchem_search`
never raises). -/
def batch_retrieve_loop (svc : PubChemService)
    (groups : List CMGroupState) : List CMGroupState :=
  groups.map (retrieve_pubchem_search svc)

/-- The update/export loop of `batch_cmg_search`. -/
def batch_update_loop (f : Fetcher) :
    List CMGroupState → List CMGroupState × Option PyError
  | [] => ([], none)
  | g :: rest =>
    match update_from_cids f g with
    | (g', none) =>
      let (rest', e) := batch_update_loop f rest
      (g' :: rest', e)
    | (g', some e) => (g' :: rest, some e)

/-- `cmgroup.batch_cmg_search(groups, resume_update, ...)`. -/
def batch_cmg_search (svc : PubChemService) (f : Fetcher) (today : Int)
    (resume_update : Bool) (groups : List CMGroupState) :
    List CMGroupState × Option PyError :=
  if resume_update then batch_update_loop f groups
  else
    match batch_init_loop svc today groups with
    | (gs, some e) => (gs, some e)
    | (gs, none) => batch_update_loop f (batch_retrieve_loop svc gs)

/-! ### cmgroup — BASE_PARAMS sharing

`CMGroup.get_params` returns `json.load(...)` (a fresh dict) when a saved
parameter file exists, and otherwise returns the module-level dict
`BASE_PARAMS` itself — the very object, not a copy.  The constructor then
runs `self._params.update(params)`, an in-place update.  The model makes
the module-level dict explicit: a constructor run maps the module state to
a new module state, and when no saved file exists the merged dict *is* the
module dict (the in-place update is represented by storing the merged
contents back into `base_params`). -/

/-- A Python dict with string keys and nullable string values, as an
insertion-ordered association list. -/
abbrev Params := List (String × Option String)

/-- `d[k] = v`: overwrite in place if the key exists, else append. -/
def dictSet (d : Params) (k : String) (v : Option String) : Params :=
  if d.any (fun kv => kv.1 == k) then
    d.map (fun kv => if kv.1 == k then (k, v) else kv)
  else d ++ [(k, v)]

/-- `d.update(other)`: set every key of `other` in `d`, in order. -/
def dictUpdate (d other : Params) : Params :=
  other.foldl (fun acc kv => dictSet acc kv.1 kv.2) d

/-- The module-level `BASE_PARAMS` dict of `cmgroup.py` as defined in the
source (all-`None` defaults except the empty name). -/
def BASE_PARAMS : Params :=
  [("materialid", none), ("name", some ""), ("searchtype", none),
   ("structtype", none), ("searchstring", none), ("last_updated", none),
   ("current_update", none)]

/-- The mutable module-level state of `cmgroup.py`: the current contents of
the `BASE_PARAMS` dict object. -/
structure CmgroupModule where
  base_params : Params
deriving DecidableEq, Repr

/-- The parameter phase of `CMGroup.__init__`:
`self._params = self.get_params(); self._params.update(params)`.
`saved` is the parsed contents of the group's parameter file, or `none`
when the file is missing or unparsable (then `get_params` returns the
`BASE_PARAMS` object and the update mutates it in place). -/
def cmgroup_init_params (saved : Option Params) (caller : Params)
    (st : CmgroupModule) : Params × CmgroupModule :=
  match saved with
  | some p => (dictUpdate p caller, st)
  | none =>
    let merged := dictUpdate st.base_params caller
    (merged, { base_params := merged })

/-! ### Concrete fixtures

Closed values used to evaluate the theorems below on concrete inputs. -/

/-- A compound record with a given CID and empty metadata. -/
def cpd (n : Nat) : Compound := ⟨n, "", none, none⟩

/-- A concrete fetcher: CID 1 has no retrievable creation date, every
other CID was created on day 0. -/
def fetchEx : Fetcher :=
  ⟨fun cid => if cid = 1 then none else some 0, fun _ => ("", none)⟩

/-- A concrete fetcher with distinct creation dates: CID 1 on day 3,
CID 2 on day 5, others unknown. -/
def dateFetchEx : Fetcher :=
  ⟨fun cid => if cid = 1 then some 3 else if cid = 2 then some 5 else none,
   fun _ => ("", none)⟩

/-- A PubChem boundary whose every call raises `WebServiceError`. -/
def svcFail : PubChemService := ⟨fun _ _ => .error (), fun _ => .error ()⟩

/-- A PubChem boundary that issues ListKey `"KEY"` and returns CIDs
`[7, 8]` for it. -/
def svcOk : PubChemService :=
  ⟨fun _ _ => .ok "KEY",
   fun k => if k = "KEY" then .ok [7, 8] else .error ()⟩

/-- A pristine group with no files on disk. -/
def gEmpty : CMGroupState :=
  { searchtype := some "substructure", structtype := "smiles",
    searchstring := "C=O", listkey := none, cids_file := [],
    compounds_file := [], last_updated := none, current_update := none }

/-- A group whose update must fail: one returned CID (1) with no
retrievable creation date, and a `last_updated` date set. -/
def gFailEx : CMGroupState :=
  { gEmpty with cids_file := [1], last_updated := some 0 }

/-- A group whose update succeeds and appends one record. -/
def gOkEx : CMGroupState := { gEmpty with cids_file := [2] }

/-- A group mid-update: records for CIDs 1, 2, 3 already logged, search
returned `[1, 2, 3, 4, 5]`. -/
def gResumeEx : CMGroupState :=
  { gEmpty with
    cids_file := [1, 2, 3, 4, 5]
    compounds_file := [some (cpd 1), some (cpd 2), some (cpd 3)] }

/-- A group whose last logged record (CID 99) is absent from the fresh
CID list `[1, 2]`. -/
def gMismatchEx : CMGroupState :=
  { gEmpty with cids_file := [1, 2], compounds_file := [some (cpd 99)] }

/-- A group with a pending search token. -/
def gKeyEx : CMGroupState := { gEmpty with listkey := some "KEY" }

/-- Caller parameters of a first group: a materialid and a search string. -/
def qParamsEx : Params := [("materialid", some "g1"), ("searchstring", some "CCO")]

/-- Caller parameters of a second group: only a materialid. -/
def rParamsEx : Params := [("materialid", some "g2")]

/-! ## Theorems -/

/-! ### Helper lemmas -/

theorem matchStrictAt_rest_lt {l m rest : List Char}
    (h : matchStrictAt l = some (m, rest)) : rest.length < l.length := by
  unfold matchStrictAt at h
  split at h
  · split at h
    · simp only [Option.some.injEq, Prod.mk.injEq] at h
      obtain ⟨-, rfl⟩ := h
      have hd : (List.dropWhile Char.isDigit l).length ≤ l.length :=
        (List.dropWhile_suffix Char.isDigit).sublist.length_le
      rename_i heq _
      rw [heq] at hd
      simp at hd
      omega
    · cases h
  · cases h

theorem strictMatchesAux_fuel :
    ∀ (f₁ : Nat) {f₂ : Nat} {l : List Char}, l.length ≤ f₁ → l.length ≤ f₂ →
      strictMatchesAux f₁ l = strictMatchesAux f₂ l := by
  intro f₁
  induction f₁ with
  | zero =>
    intro f₂ l h₁ _
    have : l = [] := List.length_eq_zero.mp (Nat.le_zero.mp h₁)
    subst this
    cases f₂ <;> rfl
  | succ k ih =>
    intro f₂ l h₁ h₂
    match l, f₂ with
    | [], 0 => rfl
    | [], _ + 1 => rfl
    | c :: t, f₂ + 1 =>
      simp only [strictMatchesAux]
      rcases hm : matchStrictAt (c :: t) with - | ⟨m, rest⟩
      · simp only [List.length_cons] at h₁ h₂
        exact ih (Nat.le_of_succ_le_succ h₁) (Nat.le_of_succ_le_succ h₂)
      · have hlt : rest.length < (c :: t).length := matchStrictAt_rest_lt hm
        simp only [List.length_cons] at h₁ h₂ hlt
        simp only [ih (Nat.le_of_lt_succ (Nat.lt_of_lt_of_le hlt h₁))
          (Nat.le_of_lt_succ (Nat.lt_of_lt_of_le hlt h₂))]

/-- The recursion `strictMatches` actually performs: match at the current
position and continue after the match, or slide one character. -/
theorem strictMatches_cons (c : Char) (t : List Char) :
    strictMatches (c :: t) =
      match matchStrictAt (c :: t) with
      | some (m, rest) => m :: strictMatches rest
      | none => strictMatches t := by
  unfold strictMatches
  simp only [List.length_cons, strictMatchesAux]
  rcases hm : matchStrictAt (c :: t) with - | ⟨m, rest⟩
  · rfl
  · have hlt : rest.length < (c :: t).length := matchStrictAt_rest_lt hm
    simp only [List.length_cons] at hlt
    simp only [strictMatchesAux_fuel t.length (Nat.le_of_lt_succ hlt)
      (Nat.le_refl _)]

/-- The elementwise product against the reversed weight ramp, as computed
by the source (`digits[:-1] * np.arange(1, n)[::-1]`), equals the indexed
sum `Σ_j d_j * (n-1-j)` over the first `n-1` digits. -/
theorem checkSum_eq_weighted_sum (ds : List Nat) :
    checkSum ds =
      ∑ j ∈ Finset.range (ds.length - 1), ds.getD j 0 * (ds.length - 1 - j) := by
  induction ds with
  | nil => simp [checkSum]
  | cons d t ih =>
    rcases t with - | ⟨e, u⟩
    · simp [checkSum]
    · have hrev : ∀ k : Nat, (List.range' 1 (k + 1)).reverse
          = (k + 1) :: (List.range' 1 k).reverse := by
        intro k
        rw [List.range'_concat]
        simp [Nat.add_comm]
      have hstep : checkSum (d :: e :: u)
          = d * (u.length + 1) + checkSum (e :: u) := by
        simp only [checkSum, List.length_cons, Nat.add_sub_cancel, hrev,
          List.dropLast, List.zipWith, List.sum_cons]
      rw [hstep, ih]
      have hsum : ∑ j ∈ Finset.range ((d :: e :: u).length - 1),
            (d :: e :: u).getD j 0 * ((d :: e :: u).length - 1 - j)
          = d * (u.length + 1)
            + ∑ j ∈ Finset.range (u.length + 1 - 1),
                (e :: u).getD j 0 * (u.length + 1 - 1 - j) := by
        simp only [List.length_cons, Nat.add_sub_cancel]
        rw [Finset.sum_range_succ']
        simp only [List.getD_cons_succ, List.getD_cons_zero, Nat.sub_zero,
          Nat.add_sub_add_right, Nat.succ_sub_succ_eq_sub]
        ring
      simp only [List.length_cons] at hsum ⊢
      rw [hsum]

theorem getD_map_digitVal (l : List Char) (j : Nat) :
    (l.map digitVal).getD j 0 = digitVal (l.getD j '0') := by
  rcases h : l[j]? with - | c
  · have hlen : l.length ≤ j := by
      by_contra hc
      exact absurd h (by simp [List.getElem?_eq_getElem (Nat.lt_of_not_le hc)])
    rw [List.getD_eq_getElem?_getD, List.getD_eq_getElem?_getD, h,
      List.getElem?_eq_none (by simpa using hlen)]
    rfl
  · rw [List.getD_eq_getElem?_getD, List.getD_eq_getElem?_getD, h,
      List.getElem?_map, h]
    rfl

theorem getLastD_map_digitVal (l : List Char) :
    (l.map digitVal).getLastD 0 = digitVal (l.getLastD '0') := by
  rcases h : l.getLast? with - | c
  · rw [List.getLastD_eq_getLast?, List.getLastD_eq_getLast?, h,
      List.getLast?_map, h]
    rfl
  · rw [List.getLastD_eq_getLast?, List.getLastD_eq_getLast?, h,
      List.getLast?_map, h]
    rfl

/-- **C3**: `validate` keeps only the digit characters of its input; with
fewer than five digits it returns the invalid marker `none` (not an
exception); with digits `d_1 .. d_n` it succeeds exactly when
`(Σ_{i=1}^{n-1} d_i * (n-i)) mod 10 = d_n`, returning the canonical
hyphenation (all digits but the last three, the next two, the last one).
In particular `validate "50--00--0 "` yields `"50-00-0"` and
`validate "50-00-5"` is invalid. -/
theorem validate_spec :
    (∀ s : String, (digitsOf s).length < 5 → validate s = none) ∧
    (∀ s : String, 5 ≤ (digitsOf s).length →
      validate s =
        if (∑ j ∈ Finset.range ((digitsOf s).length - 1),
              digitVal ((digitsOf s).getD j '0')
                * ((digitsOf s).length - 1 - j)) % 10
            = digitVal ((digitsOf s).getLastD '0')
        then some (hyphenate (digitsOf s)) else none) ∧
    validate "50--00--0 " = some "50-00-0" ∧
    validate "50-00-5" = none := by
  refine ⟨?_, ?_, by rfl, by rfl⟩
  · intro s h
    simp [validate, casrnValidDigits, List.length_map, h]
  · intro s h5
    have hsum : checkSum ((digitsOf s).map digitVal)
        = ∑ j ∈ Finset.range ((digitsOf s).length - 1),
            digitVal ((digitsOf s).getD j '0') * ((digitsOf s).length - 1 - j) := by
      rw [checkSum_eq_weighted_sum, List.length_map]
      exact Finset.sum_congr rfl fun j _ => by rw [getD_map_digitVal]
    have hvalid : casrnValidDigits ((digitsOf s).map digitVal)
        = decide ((∑ j ∈ Finset.range ((digitsOf s).length - 1),
              digitVal ((digitsOf s).getD j '0')
                * ((digitsOf s).length - 1 - j)) % 10
            = digitVal ((digitsOf s).getLastD '0')) := by
      unfold casrnValidDigits
      rw [if_neg (by rw [List.length_map]; omega)]
      exact decide_eq_decide.mpr (by rw [hsum, getLastD_map_digitVal])
    simp only [validate]
    rw [hvalid]
    by_cases hd : (∑ j ∈ Finset.range ((digitsOf s).length - 1),
        digitVal ((digitsOf s).getD j '0') * ((digitsOf s).length - 1 - j)) % 10
        = digitVal ((digitsOf s).getLastD '0')
    · rw [if_pos (decide_eq_true hd), if_pos hd]
    · rw [if_neg (by simpa using hd), if_neg hd]

/-- **C3 witness**: the theorem applied to a concrete short input. -/
theorem validate_spec_witness : validate "123" = none :=
  validate_spec.1 "123" (by decide)

theorem any_map_id {α : Type} (l : List α) (f : α → Bool) :
    (l.map f).any id = l.any f := by
  induction l with
  | nil => rfl
  | cons x t ih => simp [ih]

/-- **C5**: the keep decision of `synutils.select_synonym` equals: some
allow-list (`SELECT`) pattern matches, or no deny-list (`DESELECT`)
pattern matches; together with the four canonical examples. -/
theorem select_synonym_spec :
    (∀ s : String, select_synonym s =
      ((SELECT.any fun kp => kp.2 s.data)
        || !(DESELECT.any fun p => p s.data))) ∧
    select_synonym "UNII-12345" = true ∧
    select_synonym "InChI=FOOBAR" = false ∧
    select_synonym "aziridine" = true ∧
    select_synonym "C28H18N4O6S4.2Na" = false := by
  refine ⟨fun s => ?_, by rfl, by rfl, by rfl, by rfl⟩
  simp [select_synonym, any_map_id]

/-- **C8**: strict-mode `find` returns exactly the left-to-right scan
matches of the pattern "2–7 digits, hyphen-like separator, 2 digits,
separator, 1 digit" that pass check-digit validation, normalized by
`validate`, in first-occurrence order and without deduplication; with the
canonical two-CASRN example and a duplicated-CASRN example (the second
occurrence uses en dashes and is normalized to hyphens). -/
theorem find_spec :
    (∀ s : String,
      find s
        = (((strictMatches s.data).map String.mk).map validate).filterMap id) ∧
    find "Formaldehyde (50-00-0), copolymer with urea (57-13-6)"
      = ["50-00-0", "57-13-6"] ∧
    find "50-00-0 x 50–00–0" = ["50-00-0", "50-00-0"] :=
  ⟨fun _ => rfl, by rfl, by rfl⟩

/-- `gen_compounds` without a `last_updated` date never raises and yields
one record per CID, in order. -/
theorem gen_compounds_no_date (f : Fetcher) (cids : List Nat) :
    gen_compounds f cids none = (cids.map (fetched f), none) := by
  induction cids with
  | nil => rfl
  | cons c rest ih => simp [gen_compounds, ih]

/-- **C1**: resume idempotence.  For a group with no `last_updated` date
whose result log holds records for CIDs `a, b, c` in that order and whose
persisted CID list is `[a, b, c, d, e]` (distinct), one resume-update
call appends exactly the records for `d` and `e`, in order, leaving a
log of five records; a second call with the same CID list appends
nothing. -/
theorem update_from_cids_resume_idempotent (f : Fetcher) (g : CMGroupState)
    (a b c d e : Nat) (ra rb rc : Compound)
    (hnodup : [a, b, c, d, e].Nodup)
    (hlog : g.compounds_file = [some ra, some rb, some rc])
    (hrc : rc.CID = c)
    (hcids : g.cids_file = [a, b, c, d, e])
    (hlu : g.last_updated = none) :
    update_from_cids f g
      = ({ g with compounds_file :=
            g.compounds_file ++ [some (fetched f d), some (fetched f e)] },
          none) ∧
    (update_from_cids f g).1.compounds_file.length = 5 ∧
    update_from_cids f (update_from_cids f g).1
      = ((update_from_cids f g).1, none) := by
  simp only [List.nodup_cons, List.mem_cons, List.mem_singleton,
    List.not_mem_nil, or_false, not_or, List.nodup_nil, and_true] at hnodup
  obtain ⟨⟨hab, hac, had, hae⟩, ⟨hbc, hbd, hbe⟩, ⟨hcd, hce⟩, hde, -⟩ := hnodup
  have hBac : (a == c) = false := beq_eq_false_iff_ne.mpr hac
  have hBbc : (b == c) = false := beq_eq_false_iff_ne.mpr hbc
  have hBae : (a == e) = false := beq_eq_false_iff_ne.mpr hae
  have hBbe : (b == e) = false := beq_eq_false_iff_ne.mpr hbe
  have hBce : (c == e) = false := beq_eq_false_iff_ne.mpr hce
  have hBde : (d == e) = false := beq_eq_false_iff_ne.mpr hde
  have hresume1 : resume_cids g.compounds_file [a, b, c, d, e] = [d, e] := by
    rw [hlog]
    simp only [resume_cids, List.getLast?_cons_cons, List.getLast?_singleton,
      hrc, List.findIdx?_cons, hBac, hBbc, beq_self_eq_true, if_true,
      Bool.false_eq_true, if_false, List.findIdx?_succ]
    rfl
  have hgen1 : gen_compounds f [d, e] (none : Option Int)
      = ([fetched f d, fetched f e], none) := by
    rw [gen_compounds_no_date]
    rfl
  have h1 : update_from_cids f g
      = ({ g with compounds_file :=
            g.compounds_file ++ [some (fetched f d), some (fetched f e)] },
          none) := by
    unfold update_from_cids
    rw [hcids, hlu, hresume1]
    simp only [List.isEmpty_cons, Bool.false_eq_true, if_false, hgen1,
      List.map_cons, List.map_nil]
  refine ⟨h1, ?_, ?_⟩
  · rw [h1, hlog]
    rfl
  · rw [h1]
    have hCIDe : (fetched f e).CID = e := rfl
    have hresume2 : resume_cids
        (g.compounds_file ++ [some (fetched f d), some (fetched f e)])
        [a, b, c, d, e] = [] := by
      rw [hlog]
      simp only [resume_cids, List.cons_append, List.nil_append,
        List.getLast?_cons_cons, List.getLast?_singleton, hCIDe,
        List.findIdx?_cons, hBae, hBbe, hBce, hBde, beq_self_eq_true,
        if_true, Bool.false_eq_true, if_false, List.findIdx?_succ]
      rfl
    unfold update_from_cids
    rw [hcids]
    simp only [List.isEmpty_cons, Bool.false_eq_true, if_false, hlu,
      hresume2]
    simp [gen_compounds]

/-- **C1 witness**: the resume-idempotence theorem applied to the concrete
mid-update group `gResumeEx`. -/
theorem update_from_cids_resume_idempotent_witness :
    update_from_cids fetchEx gResumeEx
      = ({ gResumeEx with compounds_file :=
            gResumeEx.compounds_file
              ++ [some (fetched fetchEx 4), some (fetched fetchEx 5)] },
          none) ∧
    (update_from_cids fetchEx gResumeEx).1.compounds_file.length = 5 ∧
    update_from_cids fetchEx (update_from_cids fetchEx gResumeEx).1
      = ((update_from_cids fetchEx gResumeEx).1, none) :=
  update_from_cids_resume_idempotent fetchEx gResumeEx 1 2 3 4 5
    (cpd 1) (cpd 2) (cpd 3) (by decide) rfl rfl rfl rfl

/-- **C2**: fallback on mismatch.  If the last log record's CID does not
occur in the fresh CID list, or the log is missing/empty or its last line
unparsable, resume-update (with no `last_updated` date) processes the
entire fresh CID list from the start, appending one record per CID even
when that duplicates CIDs already in the log. -/
theorem update_from_cids_fallback_full (f : Fetcher) (g : CMGroupState)
    (hne : g.cids_file ≠ [])
    (hlu : g.last_updated = none)
    (hmis : g.compounds_file.getLast? = none ∨
            g.compounds_file.getLast? = some none ∨
            ∃ r : Compound, g.compounds_file.getLast? = some (some r) ∧
              r.CID ∉ g.cids_file) :
    update_from_cids f g
      = ({ g with compounds_file :=
            g.compounds_file
              ++ g.cids_file.map (fun cid => some (fetched f cid)) },
          none) := by
  have hresume : resume_cids g.compounds_file g.cids_file = g.cids_file := by
    unfold resume_cids
    rcases hmis with h | h | ⟨r, h, hnot⟩
    · simp only [h]
    · simp only [h]
    · have hfind : g.cids_file.findIdx? (fun c => c == r.CID) = none :=
        List.findIdx?_eq_none_iff.mpr
          (fun x hx => beq_eq_false_iff_ne.mpr (fun hxx => hnot (hxx ▸ hx)))
      simp only [h, hfind]
  have hne' : g.cids_file.isEmpty = false := by
    cases hc : g.cids_file
    · exact absurd hc hne
    · rfl
  unfold update_from_cids
  rw [hlu]
  simp only [hne', Bool.false_eq_true, if_false, hresume,
    gen_compounds_no_date, List.map_map, Function.comp_def]

/-- **C2 witness**: the fallback theorem applied to the concrete group
`gMismatchEx`, whose last logged CID 99 is not among the returned CIDs. -/
theorem update_from_cids_fallback_full_witness :
    update_from_cids fetchEx gMismatchEx
      = ({ gMismatchEx with compounds_file :=
            (gMismatchEx.compounds_file
              ++ gMismatchEx.cids_file.map
                  (fun cid => some (fetched fetchEx cid))) },
          none) :=
  update_from_cids_fallback_full fetchEx gMismatchEx (by decide) rfl
    (Or.inr (Or.inr ⟨cpd 99, by decide, by decide⟩))

/-- **C6**: date filtering.  With a `last_updated` date set, a CID whose
retrieved creation date is strictly before it is skipped (no record with
that CID is yielded), while a CID whose creation date equals it exactly
does yield a record (whenever the generator runs to completion). -/
theorem gen_compounds_date_filter (f : Fetcher) (cids : List Nat)
    (lu : Int) (c : Nat) :
    (∀ d : Int, f.getCreationDate c = some d → d - lu < 0 →
      ∀ r ∈ (gen_compounds f cids (some lu)).1, r.CID ≠ c) ∧
    (f.getCreationDate c = some lu → c ∈ cids →
      (gen_compounds f cids (some lu)).2 = none →
      ∃ r ∈ (gen_compounds f cids (some lu)).1, r.CID = c) := by
  constructor
  · intro d hd hlt
    induction cids with
    | nil =>
      intro r hr
      simp [gen_compounds] at hr
    | cons x rest ih =>
      intro r hr
      rcases hg : gen_compounds f rest (some lu) with ⟨tail, err⟩
      cases hcr : f.getCreationDate x with
      | none =>
        rw [show gen_compounds f (x :: rest) (some lu)
            = ([], some .typeError) from by simp [gen_compounds, hcr]] at hr
        simp at hr
      | some cd =>
        by_cases hskip : cd - lu < 0
        · rw [show gen_compounds f (x :: rest) (some lu)
              = gen_compounds f rest (some lu) from by
            simp [gen_compounds, hcr, hskip]] at hr
          exact ih r hr
        · rw [show gen_compounds f (x :: rest) (some lu)
              = (fetched f x :: tail, err) from by
            simp [gen_compounds, hcr, hskip, hg]] at hr
          simp only [List.mem_cons] at hr
          rcases hr with rfl | hr
          · intro hEq
            have hxc : x = c := hEq
            rw [hxc, hd] at hcr
            have hcd : cd = d := (Option.some.inj hcr).symm
            rw [hcd] at hskip
            exact absurd hlt hskip
          · exact ih r (by rw [hg]; exact hr)
  · intro hcdate
    induction cids with
    | nil => intro hmem; simp at hmem
    | cons x rest ih =>
      intro hmem herr
      rcases hg : gen_compounds f rest (some lu) with ⟨tail, err⟩
      by_cases hxc : x = c
      · subst hxc
        have hnoskip : ¬ (lu - lu < 0) := by omega
        rw [show gen_compounds f (x :: rest) (some lu)
            = (fetched f x :: tail, err) from by
          simp [gen_compounds, hcdate, hnoskip, hg]]
        exact ⟨fetched f x, List.mem_cons_self _ _, rfl⟩
      · have hmem' : c ∈ rest := by
          rcases List.mem_cons.mp hmem with h | h
          · exact absurd h.symm hxc
          · exact h
        cases hcr : f.getCreationDate x with
        | none =>
          rw [show gen_compounds f (x :: rest) (some lu)
              = ([], some .typeError) from by simp [gen_compounds, hcr]] at herr
          simp at herr
        | some cd =>
          by_cases hskip : cd - lu < 0
          · rw [show gen_compounds f (x :: rest) (some lu)
                = gen_compounds f rest (some lu) from by
              simp [gen_compounds, hcr, hskip]] at herr ⊢
            exact ih hmem' herr
          · rw [show gen_compounds f (x :: rest) (some lu)
                = (fetched f x :: tail, err) from by
              simp [gen_compounds, hcr, hskip, hg]] at herr ⊢
            obtain ⟨r, hrmem, hrcid⟩ := ih hmem' (by rw [hg]; exact herr)
            rw [hg] at hrmem
            exact ⟨r, List.mem_cons_of_mem _ hrmem, hrcid⟩

/-- **C6 witness**: with `last_updated = 5`, CID 1 (created on day 3) is
skipped — the record for CID 2 (created exactly on day 5) is not a record
for CID 1 — and CID 2 is yielded. -/
theorem gen_compounds_date_filter_witness :
    (fetched dateFetchEx 2).CID ≠ 1 ∧
    ∃ r ∈ (gen_compounds dateFetchEx [1, 2] (some 5)).1, r.CID = 2 :=
  ⟨(gen_compounds_date_filter dateFetchEx [1, 2] 5 1).1 3 rfl (by decide)
      (fetched dateFetchEx 2) (by decide),
    (gen_compounds_date_filter dateFetchEx [1, 2] 5 2).2 rfl (by decide)
      (by decide)⟩

/-- **C10**: if a group has `last_updated` set and the creation date of
some returned CID cannot be determined (`get_creation_date` gives `None`),
`gen_compounds` raises `TypeError` at the unguarded date subtraction
instead of skipping or yielding that compound, and the group's whole
update aborts with that `TypeError`. -/
theorem gen_compounds_missing_date_aborts (f : Fetcher) (cids : List Nat)
    (lu : Int) (c : Nat)
    (hmem : c ∈ cids) (hnone : f.getCreationDate c = none) :
    (gen_compounds f cids (some lu)).2 = some PyError.typeError ∧
    ∀ g : CMGroupState, g.last_updated = some lu → g.cids_file ≠ [] →
      resume_cids g.compounds_file g.cids_file = cids →
      (update_from_cids f g).2 = some PyError.typeError := by
  have hgen : (gen_compounds f cids (some lu)).2 = some PyError.typeError := by
    induction cids with
    | nil => simp at hmem
    | cons x rest ih =>
      rcases hg : gen_compounds f rest (some lu) with ⟨tail, err⟩
      by_cases hxc : x = c
      · subst hxc
        rw [show gen_compounds f (x :: rest) (some lu)
            = ([], some .typeError) from by simp [gen_compounds, hnone]]
      · have hmem' : c ∈ rest := by
          rcases List.mem_cons.mp hmem with h | h
          · exact absurd h.symm hxc
          · exact h
        cases hcr : f.getCreationDate x with
        | none =>
          rw [show gen_compounds f (x :: rest) (some lu)
              = ([], some .typeError) from by simp [gen_compounds, hcr]]
        | some cd =>
          by_cases hskip : cd - lu < 0
          · rw [show gen_compounds f (x :: rest) (some lu)
                = gen_compounds f rest (some lu) from by
              simp [gen_compounds, hcr, hskip]]
            exact ih hmem'
          · rw [show gen_compounds f (x :: rest) (some lu)
                = (fetched f x :: tail, err) from by
              simp [gen_compounds, hcr, hskip, hg]]
            have := ih hmem'
            rw [hg] at this
            exact this
  refine ⟨hgen, ?_⟩
  intro g hglu hgne hgresume
  have hne' : g.cids_file.isEmpty = false := by
    cases hc : g.cids_file
    · exact absurd hc hgne
    · rfl
  unfold update_from_cids
  rw [hglu, hgresume]
  rcases hp : gen_compounds f cids (some lu) with ⟨ys, err⟩
  rw [hp] at hgen
  simp only at hgen
  simp only [hne', Bool.false_eq_true, if_false, hp, hgen]

/-- **C10 witness**: the concrete group `gFailEx` (one returned CID whose
creation date is unknown, `last_updated` set) aborts with `TypeError`. -/
theorem gen_compounds_missing_date_aborts_witness :
    (gen_compounds fetchEx [1] (some 0)).2 = some PyError.typeError ∧
    (update_from_cids fetchEx gFailEx).2 = some PyError.typeError :=
  ⟨(gen_compounds_missing_date_aborts fetchEx [1] 0 1 (by decide) rfl).1,
    (gen_compounds_missing_date_aborts fetchEx [1] 0 1 (by decide) rfl).2
      gFailEx rfl (by decide) rfl⟩

/-- **C7**: in the retrieval transition with a pending ListKey, success
persists the full CID array (wholesale overwrite of the CID file) and
clears the token to `none`; a `WebServiceError` from the boundary leaves
both the token and the CID file unchanged. -/
theorem retrieve_pubchem_search_spec (svc : PubChemService)
    (g : CMGroupState) (key : String) (hkey : g.listkey = some key) :
    (∀ cids : List Nat, svc.retrieveResults key = .ok cids →
      retrieve_pubchem_search svc g
        = { g with cids_file := cids, listkey := none }) ∧
    (svc.retrieveResults key = .error () →
      retrieve_pubchem_search svc g = g) := by
  constructor
  · intro cids hok
    unfold retrieve_pubchem_search
    rw [hkey]
    simp only [hok]
  · intro herr
    unfold retrieve_pubchem_search
    rw [hkey]
    simp only [herr]

/-- **C7 witness**: the retrieval theorem applied to the concrete group
`gKeyEx` and the boundary `svcOk` that returns CIDs `[7, 8]`. -/
theorem retrieve_pubchem_search_spec_witness :
    retrieve_pubchem_search svcOk gKeyEx
      = { gKeyEx with cids_file := [7, 8], listkey := none } :=
  (retrieve_pubchem_search_spec svcOk gKeyEx "KEY" rfl).1 [7, 8] rfl

/-- **C4 counterexample**: batch processing is *not* isolated against a
failing update.  With two groups, the first of which raises `TypeError`
during `update_from_cids`, the resume-mode batch stops with that
exception and the second group is left exactly as it was — even though
updating the second group alone would have appended a record. -/
theorem batch_cmg_search_not_isolated :
    batch_cmg_search svcFail fetchEx 0 true [gFailEx, gOkEx]
      = ([gFailEx, gOkEx], some PyError.typeError) ∧
    update_from_cids fetchEx gOkEx
      = ({ gOkEx with compounds_file := [some (fetched fetchEx 2)] },
          none) := by
  exact ⟨by decide, by decide⟩

/-- **C4 (amended)**: per-group failure isolation holds only for
`WebServiceError` during search initiation (caught inside the group's own
method, so the batch loop continues); an exception raised by a group's
`update_from_cids` propagates out of the update loop of
`batch_cmg_search`, leaving every remaining group unprocessed. -/
theorem batch_cmg_search_isolation_amended (f : Fetcher)
    (svc : PubChemService) (today : Int) (g : CMGroupState)
    (rest : List CMGroupState) :
    (∀ g' e, update_from_cids f g = (g', some e) →
      batch_update_loop f (g :: rest) = (g' :: rest, some e)) ∧
    (∀ g', update_from_cids f g = (g', none) →
      batch_update_loop f (g :: rest)
        = (g' :: (batch_update_loop f rest).1,
            (batch_update_loop f rest).2)) ∧
    (g.searchtype = some "substructure" →
      svc.initSearch g.structtype g.searchstring = .error () →
      batch_init_loop svc today (g :: rest)
        = (g :: (batch_init_loop svc today rest).1,
            (batch_init_loop svc today rest).2)) := by
  refine ⟨?_, ?_, ?_⟩
  · intro g' e h
    unfold batch_update_loop
    simp only [h]
  · intro g' h
    rcases hb : batch_update_loop f rest with ⟨rest', e⟩
    unfold batch_update_loop
    simp only [h, hb]
  · intro hst hws
    rcases hb : batch_init_loop svc today rest with ⟨rest', e⟩
    unfold batch_init_loop
    unfold init_pubchem_search
    rw [hst]
    simp only [hws, hb, eq_self_iff_true, if_true]

/-- **C4 (amended) witness**: the two-group batch from the counterexample
stops after the first group's `TypeError`. -/
theorem batch_cmg_search_isolation_amended_witness :
    batch_update_loop fetchEx [gFailEx, gOkEx]
      = (gFailEx :: [gOkEx], some PyError.typeError) :=
  (batch_cmg_search_isolation_amended fetchEx svcFail 0 gFailEx [gOkEx]).1
    gFailEx PyError.typeError (by decide)

/-- **C9**: with no saved parameter file, `get_params` returns the
module-level `BASE_PARAMS` dict itself (not a copy) and the constructor
merges the caller's parameters into it in place: constructing one group
mutates the shared defaults, and a later group constructed without a
saved file observes the earlier group's parameter values (here, the
search string `"CCO"`) instead of the pristine default (`None`). -/
theorem base_params_shared_mutation (q r : Params) (st : CmgroupModule) :
    (cmgroup_init_params none q st).2.base_params
      = dictUpdate st.base_params q ∧
    (cmgroup_init_params none r (cmgroup_init_params none q st).2).1
      = dictUpdate (dictUpdate st.base_params q) r ∧
    ((cmgroup_init_params none rParamsEx
        (cmgroup_init_params none qParamsEx ⟨BASE_PARAMS⟩).2).1).lookup
          "searchstring" = some (some "CCO") ∧
    BASE_PARAMS.lookup "searchstring" = some none :=
  ⟨rfl, rfl, by decide, by decide⟩

end Camelid
